import Mathlib

/-!
Verification of the email classification and priority-scoring engine of
scopweb/mcp-server-go-emails.

The Go packages `config` (rule/pattern helpers) and `ai` (Classifier,
PriorityEngine) are shallowly embedded below.  Conventions of the embedding:

* Go `float64` values (confidences, rates, hours) are modelled as exact
  rationals `ℚ`; `int(f)` conversion of a float is truncation toward zero
  (`ratTrunc`), and Go integer division is `Int.tdiv` (truncation toward
  zero), matching Go semantics exactly on the rational model.
* Time is a rational number of hours; `time.Now()` is an explicit `now`
  parameter threaded through the stateful operations, `time.Since x` is
  `now - x`, and `24*time.Hour` is the rational `24`.
* Strings are compared character-wise (Go indexes bytes; for the ASCII
  patterns and keywords handled here the two views agree, and the byte-wise
  ASCII lowercasing of the source maps cleanly onto characters).
* Go maps used as finite key-value stores (the classification cache, the
  database tables) are modelled as functions into `Option`; the iteration
  over the `ClassificationRules` map is modelled as a fold over an
  association list, and the theorems about rule selection quantify over
  every list, covering every iteration order of the Go map.
* The md5 cache fingerprint of `getCacheKey` is a function of exactly the
  triple (From, Subject, ReceivedAt); it is modelled as that triple itself.
* The Go `regexp` standard library is external to the repository; its
  `Compile` is modelled as an abstract parameter
  `rx : String → Option (String → Bool)` (`none` = the pattern does not
  compile), which the classification functions thread through.
* The text of a few reasoning strings interpolates floating-point values
  with `%.0f`/`%.1f`; that decimal formatting is abstracted by `toString` of
  a rounded rational.  No theorem depends on those strings.
-/

namespace EmailMCP

/-! ## config package: string helpers (helpers at the bottom of config.go) -/

/-- ASCII lowercasing of one character, as the byte loop of `config.toLower`. -/
def lowerChar (c : Char) : Char :=
  if 'A' ≤ c ∧ c ≤ 'Z' then Char.ofNat (c.toNat + 32) else c

/-- Go `config.toLower`: simple ASCII lowercase. -/
def toLower (s : String) : String :=
  String.mk (s.toList.map lowerChar)

/-- Go `config.indexOf`: index of the first occurrence of `sub` in `s`,
or `-1` when there is none. -/
def indexOf (s sub : List Char) : Int :=
  if sub.isPrefixOf s then 0
  else
    match s with
    | [] => -1
    | _ :: t =>
      let r := indexOf t sub
      if r = -1 then -1 else r + 1

/-- Go `config.contains`: `len(s) >= len(substr) && indexOf(s, substr) >= 0`. -/
def contains (s sub : String) : Bool :=
  decide (sub.length ≤ s.length) && decide (0 ≤ indexOf s.toList sub.toList)

/-- The part-splitting loop of `config.matchPattern` for a pattern with an
interior `*`: cut the pattern at each `*`, dropping empty pieces. -/
def splitStar (pattern current : List Char) : List (List Char) :=
  match pattern with
  | [] => if current = [] then [] else [current]
  | ch :: t =>
    if ch = '*' then
      if current = [] then splitStar t [] else current :: splitStar t []
    else splitStar t (current ++ [ch])

/-- The ordered-occurrence check of `config.matchPattern`: each part must
occur in `s` after the end of the previous part. -/
def partsInOrder (s : List Char) (parts : List (List Char)) : Bool :=
  match parts with
  | [] => true
  | part :: rest =>
    let idx := indexOf s part
    if idx = -1 then false
    else partsInOrder (s.drop (idx.toNat + part.length)) rest

/-- Go `config.matchPattern`: simple pattern matching with the `*` wildcard
(universal `*`, exact match, leading `*` = suffix, trailing `*` = the
leading part as a literal prefix, interior `*` = ordered parts). -/
def matchPattern (s pattern : List Char) : Bool :=
  if pattern = ['*'] then true
  else if indexOf pattern ['*'] = -1 then s == pattern
  else
    match pattern with
    | '*' :: suf => suf.isSuffixOf s
    | _ =>
      if pattern.getLast? = some '*' then (pattern.dropLast).isPrefixOf s
      else partsInOrder s (splitStar pattern [])

/-- Go `config.ExtractDomain`: the part of an address after its first `@`,
or the empty string when there is no `@`. -/
def ExtractDomain (email : String) : String :=
  let atIdx := indexOf email.toList ['@']
  if atIdx = -1 then "" else String.mk (email.toList.drop (atIdx.toNat + 1))

/-! ## config package: rule structures -/

/-- Go `config.TimeDecayConfig`. -/
structure TimeDecayConfig where
  Enabled : Bool
  MaxAgeHours : Int
  DecayRate : ℚ

/-- Go `config.Condition`. -/
structure Condition where
  Field : String
  Operator : String
  Value : String
  Values : List String

/-- Go `config.ClassificationRule`. -/
structure ClassificationRule where
  Description : String
  Conditions : List Condition
  PriorityBoost : Int
  Confidence : ℚ
  Tags : List String

/-- Go `config.PriorityRules`.  The Go maps become association lists /
lookup functions. -/
structure PriorityRules where
  VIPSenders : List String
  ImportantDomains : List String
  UrgentKeywords : List String
  IgnoreSenders : List String
  IgnoreSubjects : List String
  CategoryPriority : List (String × Int)
  TimeDecay : TimeDecayConfig

/-- Go `config.PriorityConfig` (the fields the engine reads). The
`ClassificationRules` map is an association list of category name × rule. -/
structure PriorityConfig where
  PriorityRules : PriorityRules
  ClassificationRules : List (String × ClassificationRule)

/-- Go `(pc *PriorityConfig).IsVIPSender`: exact membership in the VIP list. -/
def IsVIPSender (pc : PriorityConfig) (email : String) : Bool :=
  pc.PriorityRules.VIPSenders.any (fun vip => vip == email)

/-- Go `(pc *PriorityConfig).IsImportantDomain`: exact membership. -/
def IsImportantDomain (pc : PriorityConfig) (domain : String) : Bool :=
  pc.PriorityRules.ImportantDomains.any (fun d => d == domain)

/-- Go `(pc *PriorityConfig).HasUrgentKeyword`: the first urgent keyword
contained (case-insensitively) in the text, when any. -/
def HasUrgentKeyword (pc : PriorityConfig) (text : String) : Option String :=
  pc.PriorityRules.UrgentKeywords.find? (fun keyword => contains (toLower text) (toLower keyword))

/-- Go `(pc *PriorityConfig).ShouldIgnoreSender`: some ignore pattern matches
the lowercased address. -/
def ShouldIgnoreSender (pc : PriorityConfig) (email : String) : Bool :=
  pc.PriorityRules.IgnoreSenders.any
    (fun pattern => matchPattern (toLower email).toList (toLower pattern).toList)

/-- Go `(pc *PriorityConfig).ShouldIgnoreSubject`: some ignore keyword is a
(case-insensitive) substring of the subject. -/
def ShouldIgnoreSubject (pc : PriorityConfig) (subject : String) : Bool :=
  pc.PriorityRules.IgnoreSubjects.any
    (fun keyword => contains (toLower subject) (toLower keyword))

/-- Go `(pc *PriorityConfig).GetCategoryPriority`: lookup with default 0. -/
def GetCategoryPriority (pc : PriorityConfig) (category : String) : Int :=
  match pc.PriorityRules.CategoryPriority.find? (fun p => p.1 == category) with
  | some p => p.2
  | none => 0

/-! ## storage package: the records and tables the core reads and writes -/

/-- Go `storage.SenderAnalytics` (the fields the core reads).  The message
counters are the counts of the data model; `EngagementScore` is the stored
integer the schema constrains to [0,100]. -/
structure SenderAnalytics where
  EmailAddress : String
  TotalEmails : Nat
  ReadCount : Nat
  ReplyCount : Nat
  EngagementScore : Int
  IsVIP : Bool

/-- Go `storage.Classification` (one row of the classifications table). -/
structure Classification where
  EmailID : String
  Category : String
  Confidence : ℚ
  Method : String
  Tags : List String
  Reasoning : String
  ClassifiedAt : ℚ

/-- The persistent store as the core sees it: the two tables it reads,
keyed by sender address and by message id. -/
structure Database where
  senderAnalytics : String → Option SenderAnalytics
  classifications : String → Option Classification

/-- Go `(db *Database).GetSenderAnalytics`; a missing row is the lookup
error the callers treat as no history. -/
def GetSenderAnalytics (db : Database) (emailAddress : String) : Option SenderAnalytics :=
  db.senderAnalytics emailAddress

/-! ## ai package: classifier (classifier.go) -/

/-- Go `ai.Email`. -/
structure Email where
  ID : String
  From : String
  To : String
  Subject : String
  Body : String
  BodySnippet : String
  Headers : List (String × String)
  ReceivedAt : ℚ

/-- Go `ai.ClassificationResult`. -/
structure ClassificationResult where
  EmailID : String
  Category : String
  Confidence : ℚ
  Method : String
  Tags : List String
  Reasoning : String
  Timestamp : ℚ
deriving DecidableEq

/-- The cache fingerprint domain: `getCacheKey` hashes exactly the triple
(From, Subject, ReceivedAt), modelled as the triple itself. -/
abbrev CacheKey := String × String × ℚ

/-- Go `ai.Classifier`: configuration, store handle and in-memory cache. -/
structure Classifier where
  config : PriorityConfig
  db : Database
  cache : CacheKey → Option ClassificationResult

/-- Go `(c *Classifier).getCacheKey`: the md5 fingerprint of
`From:Subject:ReceivedAt`, modelled as the hashed triple. -/
def getCacheKey (email : Email) : CacheKey :=
  (email.From, email.Subject, email.ReceivedAt)

/-- Go `(c *Classifier).getAllHeaders`: all `key: value` pairs joined by
newlines. -/
def getAllHeaders (email : Email) : String :=
  String.intercalate "\n" (email.Headers.map (fun p => p.1 ++ ": " ++ p.2))

/-- Go `ai.containsIgnoreCase` (strings.Contains over lowered strings). -/
def containsIgnoreCase (s sub : String) : Bool :=
  contains (toLower s) (toLower sub)

/-- Go `ai.containsAny` (strings.Contains, case-sensitive). -/
def containsAny (s : String) (subs : List String) : Bool :=
  subs.any (fun sub => contains s sub)

/-- How Go `regexp.Compile` is abstracted: `none` when the pattern does not
compile, otherwise the match predicate of the compiled pattern. -/
abbrev RegexOracle := String → Option (String → Bool)

/-- Go `(c *Classifier).matchesCondition`: extract the field value, then
apply the operator; unknown fields and operators, and uncompilable regex
patterns, evaluate to false. -/
def matchesCondition (rx : RegexOracle) (email : Email) (cond : Condition) : Bool :=
  let fieldValue? : Option String :=
    if cond.Field == "from" then some email.From
    else if cond.Field == "to" then some email.To
    else if cond.Field == "subject" then some email.Subject
    else if cond.Field == "body" then some email.BodySnippet
    else if cond.Field == "headers" then some (getAllHeaders email)
    else none
  match fieldValue? with
  | none => false
  | some fieldValue =>
    if cond.Operator == "contains" then containsIgnoreCase fieldValue cond.Value
    else if cond.Operator == "contains_any" then
      cond.Values.any (fun val => containsIgnoreCase fieldValue val)
    else if cond.Operator == "regex" then
      match rx cond.Value with
      | none => false
      | some re => re fieldValue
    else if cond.Operator == "domain_in" then
      cond.Values.any (fun allowedDomain => ExtractDomain fieldValue == allowedDomain)
    else if cond.Operator == "domain_not_in" then
      cond.Values.all (fun excludedDomain => !(ExtractDomain fieldValue == excludedDomain))
    else false

/-- Go `(c *Classifier).matchesRule`: all conditions must match. -/
def matchesRule (rx : RegexOracle) (email : Email) (rule : ClassificationRule) : Bool :=
  rule.Conditions.all (fun condition => matchesCondition rx email condition)

/-- Go `(c *Classifier).defaultClassification`: the built-in heuristics in
their fixed order. -/
def defaultClassification (email : Email) (now : ℚ) : ClassificationResult :=
  let subjectLower := toLower email.Subject
  let fromLower := toLower email.From
  let triple : String × String × ℚ :=
    if containsAny fromLower ["noreply@", "no-reply@", "notifications@"] then
      ("newsletters", "Automated sender detected", 0.7)
    else if containsAny subjectLower ["newsletter", "subscription", "digest"] then
      ("newsletters", "Newsletter keywords in subject", 0.75)
    else if containsAny subjectLower ["sale", "offer", "discount", "% off", "deal"] then
      ("promotions", "Promotional keywords detected", 0.80)
    else if containsAny subjectLower ["invoice", "payment", "receipt", "bill"] then
      ("invoice", "Financial keywords detected", 0.85)
    else if containsAny subjectLower ["urgent", "asap", "important", "critical"] then
      ("urgent", "Urgent keywords detected", 0.90)
    else ("personal", "Default classification - no specific rules matched", 0.5)
  { EmailID := email.ID
    Category := triple.1
    Confidence := triple.2.2
    Method := "rules"
    Tags := ["default", "heuristic"]
    Reasoning := triple.2.1
    Timestamp := now }

/-- The result built for the winning rule inside `classifyByRules`. -/
def ruleResult (email : Email) (category : String) (rule : ClassificationRule) (now : ℚ) :
    ClassificationResult :=
  { EmailID := email.ID
    Category := category
    Confidence := rule.Confidence
    Method := "rules"
    Tags := rule.Tags
    Reasoning := "Matched rule: " ++ rule.Description
    Timestamp := now }

/-- One step of the loop of `classifyByRules`: keep the running best match
and highest confidence, replacing them when a rule matches with strictly
higher confidence. -/
def ruleStep (rx : RegexOracle) (email : Email) (now : ℚ)
    (acc : Option ClassificationResult × ℚ) (p : String × ClassificationRule) :
    Option ClassificationResult × ℚ :=
  if matchesRule rx email p.2 then
    if acc.2 < p.2.Confidence then (some (ruleResult email p.1 p.2 now), p.2.Confidence)
    else acc
  else acc

/-- Go `(c *Classifier).classifyByRules`: fold over the configured rules
(the Go map iteration, in list order), then the default heuristics when no
rule won. -/
def classifyByRules (rx : RegexOracle) (c : Classifier) (email : Email) (now : ℚ) :
    ClassificationResult :=
  let final := c.config.ClassificationRules.foldl (ruleStep rx email now)
    ((none : Option ClassificationResult), (0 : ℚ))
  match final.1 with
  | some bestMatch => bestMatch
  | none => defaultClassification email now

/-- What one call of `Classify` produces: the result, the returned error
(always `nil` in the source) and the classifier state after the call. -/
structure ClassifyOutput where
  result : ClassificationResult
  err : Option String
  state : Classifier

/-- The fresh-cache-entry lookup at the top of `Classify`: a hit only when
an entry exists and is younger than 24 hours. -/
def cacheLookup (c : Classifier) (email : Email) (now : ℚ) : Option ClassificationResult :=
  match c.cache (getCacheKey email) with
  | some cached => if now - cached.Timestamp < 24 then some cached else none
  | none => none

/-- Go `(c *Classifier).Classify`: fresh cache hit, else the ignore-sender
and ignore-subject short circuits, else rule classification stored in the
cache. -/
def Classify (rx : RegexOracle) (c : Classifier) (email : Email) (now : ℚ) : ClassifyOutput :=
  let cacheKey := getCacheKey email
  match cacheLookup c email now with
  | some cached => ⟨cached, none, c⟩
  | none =>
    if ShouldIgnoreSender c.config email.From then
      ⟨{ EmailID := email.ID
         Category := "spam"
         Confidence := 0.99
         Method := "rules"
         Tags := ["ignored", "auto"]
         Reasoning := "Sender is in ignore list"
         Timestamp := now }, none, c⟩
    else if ShouldIgnoreSubject c.config email.Subject then
      ⟨{ EmailID := email.ID
         Category := "newsletters"
         Confidence := 0.95
         Method := "rules"
         Tags := ["ignored", "auto"]
         Reasoning := "Subject matches ignore pattern"
         Timestamp := now }, none, c⟩
    else
      let result := classifyByRules rx c email now
      ⟨result, none,
        { c with cache := fun k => if k = cacheKey then some result else c.cache k }⟩

/-- Go `(c *Classifier).SaveClassification`: upsert of the result into the
classifications table (the store sets the row timestamp). -/
def SaveClassification (c : Classifier) (result : ClassificationResult) (now : ℚ) :
    Classifier × Option String :=
  let classification : Classification :=
    { EmailID := result.EmailID
      Category := result.Category
      Confidence := result.Confidence
      Method := result.Method
      Tags := result.Tags
      Reasoning := result.Reasoning
      ClassifiedAt := now }
  ({ c with db := { c.db with classifications :=
      fun k => if k = result.EmailID then some classification else c.db.classifications k } },
   none)

/-- Go `(c *Classifier).GetClassification`: read a stored classification
back as a result. -/
def GetClassification (c : Classifier) (emailID : String) : Option ClassificationResult :=
  match c.db.classifications emailID with
  | none => none
  | some classification =>
    some { EmailID := classification.EmailID
           Category := classification.Category
           Confidence := classification.Confidence
           Method := classification.Method
           Tags := classification.Tags
           Reasoning := classification.Reasoning
           Timestamp := classification.ClassifiedAt }

/-- Go `(c *Classifier).LearnFromFeedback`: record the user category as a
fresh result with confidence 1 and save it; nothing else changes. -/
def LearnFromFeedback (c : Classifier) (emailID correctCategory : String) (now : ℚ) :
    Classifier × Option String :=
  SaveClassification c
    { EmailID := emailID
      Category := correctCategory
      Confidence := 1.0
      Method := "user"
      Tags := ["user_corrected"]
      Reasoning := "User feedback"
      Timestamp := now } now

/-! ## ai package: priority engine (priority.go) -/

/-- Go `int(f)` conversion of a float: truncation toward zero, on the exact
rational model. -/
def ratTrunc (q : ℚ) : Int :=
  q.num.tdiv (q.den : Int)

/-- Abstraction of the decimal rendering fmt applies to a float (`%.0f`,
`%.1f`): `toString` of the rounded rational.  No theorem depends on it. -/
def fmtFloat (q : ℚ) : String :=
  toString (round q)

/-- Go `ai.PriorityScore`.  The Go `Factors` map records exactly the six
insertions `CalculatePriority` performs; it is modelled as that association
list. -/
structure PriorityScore where
  EmailID : String
  Score : Int
  Factors : List (String × Int)
  ReasoningChain : List String
  Category : String
  Timestamp : ℚ

/-- Go `ai.PriorityEngine`; the classifier pointer may be nil. -/
structure PriorityEngine where
  config : PriorityConfig
  db : Database
  classifier : Option Classifier

/-- Go `(pe *PriorityEngine).calculateSenderScore` (0-30 points). -/
def calculateSenderScore (pe : PriorityEngine) (email : Email) : Int × List String :=
  if IsVIPSender pe.config email.From then (30, ["✅ VIP sender (+30)"])
  else
    let domain := ExtractDomain email.From
    if IsImportantDomain pe.config domain then
      (20, ["✅ Important domain: " ++ domain ++ " (+20)"])
    else
      match GetSenderAnalytics pe.db email.From with
      | some analytics =>
        if analytics.IsVIP then (25, ["✅ Learned VIP sender (+25)"])
        else
          let engagementBonus := (analytics.EngagementScore * 15).tdiv 100
          if 0 < engagementBonus then
            (engagementBonus,
             ["📊 Engagement score: " ++ toString analytics.EngagementScore ++
              " (+" ++ toString engagementBonus ++ ")"])
          else (0, ["👤 Unknown sender (+0)"])
      | none => (0, ["👤 Unknown sender (+0)"])

/-- Go `(pe *PriorityEngine).calculateKeywordScore` (0-20 points).  The
source wraps the matched keyword in quotes; the quotes are elided here. -/
def calculateKeywordScore (pe : PriorityEngine) (email : Email) : Int × List String :=
  match HasUrgentKeyword pe.config email.Subject with
  | some keyword => (20, ["🚨 Urgent keyword in subject: " ++ keyword ++ " (+20)"])
  | none =>
    match HasUrgentKeyword pe.config email.BodySnippet with
    | some keyword => (15, ["⚠️  Urgent keyword in body: " ++ keyword ++ " (+15)"])
    | none =>
      let actionKeywords :=
        ["action required", "please respond", "response needed", "deadline", "due date"]
      match actionKeywords.find?
          (fun kw => containsIgnoreCase email.Subject kw || containsIgnoreCase email.BodySnippet kw) with
      | some kw => (10, ["📋 Action keyword: " ++ kw ++ " (+10)"])
      | none => (0, ["📝 No urgent keywords (+0)"])

/-- Go `(pe *PriorityEngine).calculateTemporalScore` (0-15 points). -/
def calculateTemporalScore (email : Email) (now : ℚ) : Int × List String :=
  let age := now - email.ReceivedAt
  if age < 1 then (15, ["⏰ Very recent: <1 hour (+15)"])
  else if age < 6 then (10, ["⏱️  Recent: <6 hours (+10)"])
  else if age < 24 then (5, ["📅 Today (+5)"])
  else if age < 3 * 24 then (2, ["📆 Last 3 days (+2)"])
  else (0, ["🕰️  Old: " ++ toString (ratTrunc (age / 24)) ++ " days (+0)"])

/-- Go `(pe *PriorityEngine).calculateCategoryScore` (0-15 points): reuse a
stored classification, else classify now (possibly updating the classifier
cache); the configured category boost is clamped to [0,15]. -/
def calculateCategoryScore (rx : RegexOracle) (pe : PriorityEngine) (email : Email) (now : ℚ) :
    Int × List String × String × Option Classifier :=
  match pe.classifier with
  | none => (0, ["📁 Unknown category (+0)"], "unknown", none)
  | some cl =>
    let pair : ClassificationResult × Classifier :=
      match GetClassification cl email.ID with
      | some classification => (classification, cl)
      | none =>
        let out := Classify rx cl email now
        (out.result, out.state)
    let category := pair.1.Category
    let categoryBoost := GetCategoryPriority pe.config category
    let normalizedScore :=
      if 15 < categoryBoost then 15 else if categoryBoost < 0 then 0 else categoryBoost
    let reasoning :=
      if 0 < categoryBoost then
        ["📁 Category " ++ category ++ " (+" ++ toString normalizedScore ++ ")"]
      else if categoryBoost < 0 then
        ["📁 Category " ++ category ++ " (" ++ toString categoryBoost ++ ")"]
      else ["📁 Category " ++ category ++ " (+0)"]
    (normalizedScore, reasoning, category, some pair.2)

/-- Go `(pe *PriorityEngine).calculateEngagementScore` (0-10 points). -/
def calculateEngagementScore (pe : PriorityEngine) (email : Email) : Int × List String :=
  match GetSenderAnalytics pe.db email.From with
  | none => (0, ["📊 No engagement history (+0)"])
  | some analytics =>
    if 0 < analytics.TotalEmails then
      let readRate : ℚ := (analytics.ReadCount : ℚ) / (analytics.TotalEmails : ℚ)
      let replyRate : ℚ := (analytics.ReplyCount : ℚ) / (analytics.TotalEmails : ℚ)
      let raw := ratTrunc (readRate * 5 + replyRate * 5)
      let score := if 10 < raw then 10 else raw
      if 5 < score then
        (score,
         ["💬 High engagement: " ++ fmtFloat (readRate * 100) ++ "% read, " ++
          fmtFloat (replyRate * 100) ++ "% reply (+" ++ toString score ++ ")"])
      else if 0 < score then (score, ["📬 Some engagement (+" ++ toString score ++ ")"])
      else if score = 0 then (score, ["📊 No engagement history (+0)"])
      else (score, [])
    else (0, ["📊 No engagement history (+0)"])

/-- Go `(pe *PriorityEngine).calculateThreadScore` (0-10 points). -/
def calculateThreadScore (email : Email) : Int × List String :=
  let lowered := toLower email.Subject
  let isReply := contains lowered "re:" || contains lowered "fwd:"
  if isReply then (10, ["🔗 Part of active thread (+10)"])
  else (0, ["✉️  New conversation (+0)"])

/-- Go `(pe *PriorityEngine).applyTimeDecay`: reduce the score of a message
older than the configured max age by the linear decay factor, which is
floored at 0; returns the new score and the reasoning entry. -/
def applyTimeDecay (pe : PriorityEngine) (score : Int) (receivedAt now : ℚ) : Int × String :=
  if !pe.config.PriorityRules.TimeDecay.Enabled then (score, "")
  else
    let age := now - receivedAt
    let maxAge : ℚ := (pe.config.PriorityRules.TimeDecay.MaxAgeHours : ℚ)
    if maxAge < age then
      let decayRate := pe.config.PriorityRules.TimeDecay.DecayRate
      let hoursOld := age
      let decayFactor0 := 1 - decayRate * (hoursOld / 24)
      let decayFactor := if decayFactor0 < 0 then 0 else decayFactor0
      let newScore := ratTrunc ((score : ℚ) * decayFactor)
      let reduction := score - newScore
      (newScore,
       "⏳ Time decay: -" ++ toString reduction ++
       " (age: " ++ fmtFloat (hoursOld / 24) ++ " days)")
    else (score, "")

/-- What one call of `CalculatePriority` produces: the score, the returned
error (always `nil` in the source) and the engine state after the call (the
classifier cache may have gained the fresh classification). -/
structure PriorityOutput where
  score : PriorityScore
  err : Option String
  state : PriorityEngine

/-- Go `(pe *PriorityEngine).CalculatePriority`: sum the six factors while
recording them in the factors map and the reasoning chain, optionally apply
time decay (recorded only when it changed the score), and normalize to
[0,100]. -/
def CalculatePriority (rx : RegexOracle) (pe : PriorityEngine) (email : Email) (now : ℚ) :
    PriorityOutput :=
  let senderScore := (calculateSenderScore pe email).1
  let senderReasoning := (calculateSenderScore pe email).2
  let keywordScore := (calculateKeywordScore pe email).1
  let keywordReasoning := (calculateKeywordScore pe email).2
  let temporalScore := (calculateTemporalScore email now).1
  let temporalReasoning := (calculateTemporalScore email now).2
  let categoryOut := calculateCategoryScore rx pe email now
  let categoryScore := categoryOut.1
  let categoryReasoning := categoryOut.2.1
  let category := categoryOut.2.2.1
  let classifierOut := categoryOut.2.2.2
  let engagementScore := (calculateEngagementScore pe email).1
  let engagementReasoning := (calculateEngagementScore pe email).2
  let threadScore := (calculateThreadScore email).1
  let threadReasoning := (calculateThreadScore email).2
  let score0 :=
    senderScore + keywordScore + temporalScore + categoryScore + engagementScore + threadScore
  let factors :=
    [("sender", senderScore), ("keywords", keywordScore), ("temporal", temporalScore),
     ("category", categoryScore), ("engagement", engagementScore), ("thread", threadScore)]
  let reasoning0 :=
    senderReasoning ++ keywordReasoning ++ temporalReasoning ++ categoryReasoning ++
    engagementReasoning ++ threadReasoning
  let afterDecay : Int × List String :=
    if pe.config.PriorityRules.TimeDecay.Enabled then
      let dr := applyTimeDecay pe score0 email.ReceivedAt now
      if dr.1 ≠ score0 then (dr.1, reasoning0 ++ [dr.2]) else (score0, reasoning0)
    else (score0, reasoning0)
  let score1 := if 100 < afterDecay.1 then 100 else afterDecay.1
  let score2 := if score1 < 0 then 0 else score1
  ⟨{ EmailID := email.ID
     Score := score2
     Factors := factors
     ReasoningChain := afterDecay.2
     Category := category
     Timestamp := now },
   none,
   { pe with classifier := classifierOut }⟩

/-- The clamp of an integer score to [0,100], as the normalization at the
end of `CalculatePriority` computes it. -/
def clamp100 (score : Int) : Int :=
  if 100 < score then 100 else if score < 0 then 0 else score

/-- The sum of the contributions recorded in a factors map. -/
def sumFactors (factors : List (String × Int)) : Int :=
  (factors.map Prod.snd).sum

/-- Modelled from the spec (the Decay paragraph of 4.2, which describes
decay as applied after the 0-100 clamp of the raw factor sum):
`decayFactor = max(0, 1 - decayRate * (ageInHours/24))`;
`newScore = floor(score * decayFactor)` with `score` the clamped raw sum;
and a final clamp to [0,100]. -/
def specDecayPipeline (rawSum : Int) (decayRate ageInHours : ℚ) : Int :=
  clamp100 ⌊(clamp100 rawSum : ℚ) * max 0 (1 - decayRate * (ageInHours / 24))⌋

/-- The well-formedness of any stored analytics row for a given sender: its
engagement score is in [0,100], as the schema CHECK constraint and the spec
data model state. -/
def engagementScoreOK (db : Database) (sender : String) : Prop :=
  ∀ a, db.senderAnalytics sender = some a → 0 ≤ a.EngagementScore ∧ a.EngagementScore ≤ 100

/-- The raw sum of the six factor contributions of a message. -/
def rawSum (rx : RegexOracle) (pe : PriorityEngine) (email : Email) (now : ℚ) : Int :=
  (calculateSenderScore pe email).1 + (calculateKeywordScore pe email).1 +
  (calculateTemporalScore email now).1 + (calculateCategoryScore rx pe email now).1 +
  (calculateEngagementScore pe email).1 + (calculateThreadScore email).1

/-! ## Concrete fixtures used by witnesses and counterexamples -/

/-- A regex oracle under which no pattern compiles. -/
def rxNone : RegexOracle := fun _ => none

/-- An empty persistent store. -/
def dbEmpty : Database :=
  { senderAnalytics := fun _ => none, classifications := fun _ => none }

/-- Priority rules with everything empty and decay disabled. -/
def rulesPlain : PriorityRules :=
  { VIPSenders := []
    ImportantDomains := []
    UrgentKeywords := []
    IgnoreSenders := []
    IgnoreSubjects := []
    CategoryPriority := []
    TimeDecay := { Enabled := false, MaxAgeHours := 0, DecayRate := 0 } }

/-- A configuration with no rules and decay disabled. -/
def pcPlain : PriorityConfig :=
  { PriorityRules := rulesPlain, ClassificationRules := [] }

/-- A configuration with decay enabled: threshold 48 hours, rate 0.1/day. -/
def pcDecay : PriorityConfig :=
  { PriorityRules :=
      { rulesPlain with TimeDecay := { Enabled := true, MaxAgeHours := 48, DecayRate := 0.1 } }
    ClassificationRules := [] }

/-- A configuration whose only ignore-sender pattern is the glob of the spec
example. -/
def pcIgnore : PriorityConfig :=
  { PriorityRules := { rulesPlain with IgnoreSenders := ["*@marketing.com"] }
    ClassificationRules := [] }

/-- A stored analytics row with engagement score 50. -/
def analyticsW : SenderAnalytics :=
  { EmailAddress := "alice@example.com"
    TotalEmails := 10
    ReadCount := 8
    ReplyCount := 4
    EngagementScore := 50
    IsVIP := false }

/-- A store holding analytics for one sender. -/
def dbAnalytics : Database :=
  { senderAnalytics := fun addr => if addr = "alice@example.com" then some analyticsW else none
    classifications := fun _ => none }

/-- A plain message from a known sender. -/
def emailW : Email :=
  { ID := "m1"
    From := "alice@example.com"
    To := "bob@example.com"
    Subject := "hello"
    Body := ""
    BodySnippet := ""
    Headers := []
    ReceivedAt := 0 }

/-- The message of the spec ignore example: sender promo@marketing.com. -/
def emailMarketing : Email :=
  { ID := "m2"
    From := "promo@marketing.com"
    To := "bob@example.com"
    Subject := "big sale"
    Body := ""
    BodySnippet := ""
    Headers := []
    ReceivedAt := 0 }

/-- The message of the spec heuristics example: a tech newsletter digest. -/
def emailDigest : Email :=
  { ID := "m3"
    From := "newsletter@techcrunch.com"
    To := "bob@example.com"
    Subject := "Daily Tech News Digest"
    Body := ""
    BodySnippet := ""
    Headers := []
    ReceivedAt := 0 }

/-- A classifier over a plain configuration and an empty cache. -/
def clPlain : Classifier :=
  { config := pcPlain, db := dbEmpty, cache := fun _ => none }

/-- A classifier whose configuration ignores the marketing glob. -/
def clIgnore : Classifier :=
  { config := pcIgnore, db := dbEmpty, cache := fun _ => none }

/-- A rule that matches every message (empty substring condition on the
subject) but carries confidence 0. -/
def ruleZero : ClassificationRule :=
  { Description := "zero-confidence catch-all"
    Conditions := [{ Field := "subject", Operator := "contains", Value := "", Values := [] }]
    PriorityBoost := 0
    Confidence := 0
    Tags := ["zero"] }

/-- A rule that matches every message with confidence 0.8. -/
def ruleWork : ClassificationRule :=
  { Description := "work catch-all"
    Conditions := [{ Field := "subject", Operator := "contains", Value := "", Values := [] }]
    PriorityBoost := 0
    Confidence := 0.8
    Tags := ["work-tag"] }

/-- A classifier configured with only the zero-confidence rule, under the
category name X. -/
def clZeroRule : Classifier :=
  { config := { PriorityRules := rulesPlain, ClassificationRules := [("X", ruleZero)] }
    db := dbEmpty
    cache := fun _ => none }

/-- A plain priority engine with no classifier and no history. -/
def peW : PriorityEngine := { config := pcPlain, db := dbEmpty, classifier := none }

/-- A priority engine with stored analytics for the sender of emailW. -/
def peAnalytics : PriorityEngine := { config := pcPlain, db := dbAnalytics, classifier := none }

/-- A priority engine with decay enabled. -/
def peDecay : PriorityEngine := { config := pcDecay, db := dbEmpty, classifier := none }

/-- A cached classification result for emailW, stamped at time 0. -/
def cachedResultW : ClassificationResult :=
  { EmailID := "m1"
    Category := "work"
    Confidence := 0.9
    Method := "rules"
    Tags := ["t"]
    Reasoning := "r"
    Timestamp := 0 }

/-- A classifier whose cache already holds cachedResultW for emailW. -/
def clCached : Classifier :=
  { config := pcPlain
    db := dbEmpty
    cache := fun k => if k = ("alice@example.com", "hello", (0 : ℚ)) then some cachedResultW else none }

/-! ## Arithmetic helper lemmas -/

theorem ratTrunc_eq_floor {q : ℚ} (h : 0 ≤ q) : ratTrunc q = ⌊q⌋ := by
  unfold ratTrunc
  rw [Int.tdiv_eq_ediv (Rat.num_nonneg.mpr h) (Int.ofNat_nonneg _), Rat.floor_def]

theorem ratTrunc_nonneg {q : ℚ} (h : 0 ≤ q) : 0 ≤ ratTrunc q :=
  Int.tdiv_nonneg (Rat.num_nonneg.mpr h) (Int.ofNat_nonneg _)

theorem ratTrunc_cast_le {q : ℚ} (h : 0 ≤ q) : (ratTrunc q : ℚ) ≤ q := by
  rw [ratTrunc_eq_floor h]
  exact Int.floor_le q

theorem ratTrunc_nonpos {q : ℚ} (h : q ≤ 0) : ratTrunc q ≤ 0 := by
  unfold ratTrunc
  have hnum : q.num ≤ 0 := Rat.num_nonpos.mpr h
  have h1 : 0 ≤ (-q.num).tdiv (q.den : Int) :=
    Int.tdiv_nonneg (by omega) (Int.ofNat_nonneg _)
  have h2 : (-q.num).tdiv (q.den : Int) = -(q.num.tdiv (q.den : Int)) := Int.neg_tdiv _ _
  omega

theorem ratTrunc_le_of_le {q : ℚ} {n : Int} (h0 : 0 ≤ q) (h : q ≤ (n : ℚ)) : ratTrunc q ≤ n := by
  have h1 : (ratTrunc q : ℚ) ≤ (n : ℚ) := le_trans (ratTrunc_cast_le h0) h
  exact_mod_cast h1

theorem clamp100_nonneg (s : Int) : 0 ≤ clamp100 s := by
  unfold clamp100
  split_ifs <;> omega

theorem clamp100_le_100 (s : Int) : clamp100 s ≤ 100 := by
  unfold clamp100
  split_ifs <;> omega

theorem clamp100_mono {a b : Int} (h : a ≤ b) : clamp100 a ≤ clamp100 b := by
  unfold clamp100
  split_ifs <;> omega

theorem clamp100_of_range {s : Int} (h0 : 0 ≤ s) (h1 : s ≤ 100) : clamp100 s = s := by
  unfold clamp100
  split_ifs <;> omega

theorem two_step_clamp (x : Int) :
    (if (if 100 < x then 100 else x) < 0 then 0 else if 100 < x then 100 else x) = clamp100 x := by
  unfold clamp100
  split_ifs <;> omega

/-! ## Factor bound lemmas -/

theorem ite_fst {c : Prop} [Decidable c] (a b : Int × List String) :
    (if c then a else b).1 = if c then a.1 else b.1 := by
  split_ifs <;> rfl

theorem senderScore_bounds (pe : PriorityEngine) (email : Email)
    (h : engagementScoreOK pe.db email.From) :
    0 ≤ (calculateSenderScore pe email).1 ∧ (calculateSenderScore pe email).1 ≤ 30 := by
  simp only [calculateSenderScore]
  rcases ha : GetSenderAnalytics pe.db email.From with _ | a
  · simp only [ha, ite_fst]
    split_ifs <;> omega
  · obtain ⟨hes0, hes1⟩ := h a ha
    have htd : (a.EngagementScore * 15).tdiv 100 = (a.EngagementScore * 15) / 100 :=
      Int.tdiv_eq_ediv (by nlinarith) (by norm_num)
    simp only [ha, htd, ite_fst]
    split_ifs <;> omega

theorem keywordScore_bounds (pe : PriorityEngine) (email : Email) :
    0 ≤ (calculateKeywordScore pe email).1 ∧ (calculateKeywordScore pe email).1 ≤ 20 := by
  unfold calculateKeywordScore
  rcases HasUrgentKeyword pe.config email.Subject with _ | k1
  · rcases HasUrgentKeyword pe.config email.BodySnippet with _ | k2
    · rcases hf : List.find? (fun kw => containsIgnoreCase email.Subject kw ||
          containsIgnoreCase email.BodySnippet kw)
          ["action required", "please respond", "response needed", "deadline", "due date"] with _ | k3
      · simp only [hf]
        exact ⟨by norm_num, by norm_num⟩
      · simp only [hf]
        exact ⟨by norm_num, by norm_num⟩
    · exact ⟨by norm_num, by norm_num⟩
  · exact ⟨by norm_num, by norm_num⟩

theorem temporalScore_bounds (email : Email) (now : ℚ) :
    0 ≤ (calculateTemporalScore email now).1 ∧ (calculateTemporalScore email now).1 ≤ 15 := by
  simp only [calculateTemporalScore, ite_fst]
  split_ifs <;> omega

theorem categoryScore_bounds (rx : RegexOracle) (pe : PriorityEngine) (email : Email) (now : ℚ) :
    0 ≤ (calculateCategoryScore rx pe email now).1 ∧
      (calculateCategoryScore rx pe email now).1 ≤ 15 := by
  unfold calculateCategoryScore
  rcases pe.classifier with _ | cl
  · exact ⟨by norm_num, by norm_num⟩
  · simp only
    split_ifs <;> omega

theorem engagementScore_bounds (pe : PriorityEngine) (email : Email) :
    0 ≤ (calculateEngagementScore pe email).1 ∧ (calculateEngagementScore pe email).1 ≤ 10 := by
  unfold calculateEngagementScore
  rcases ha : GetSenderAnalytics pe.db email.From with _ | a
  · exact ⟨by norm_num, by norm_num⟩
  · simp only
    have hq : (0 : ℚ) ≤ (a.ReadCount : ℚ) / (a.TotalEmails : ℚ) * 5 +
        (a.ReplyCount : ℚ) / (a.TotalEmails : ℚ) * 5 := by positivity
    have h0 := ratTrunc_nonneg hq
    split_ifs <;> simp_all

theorem threadScore_bounds (email : Email) :
    0 ≤ (calculateThreadScore email).1 ∧ (calculateThreadScore email).1 ≤ 10 := by
  simp only [calculateThreadScore, ite_fst]
  split_ifs <;> omega

/-! ## The score pipeline of CalculatePriority -/

theorem rawSum_bounds (rx : RegexOracle) (pe : PriorityEngine) (email : Email) (now : ℚ)
    (h : engagementScoreOK pe.db email.From) :
    0 ≤ rawSum rx pe email now ∧ rawSum rx pe email now ≤ 100 := by
  obtain ⟨a1, b1⟩ := senderScore_bounds pe email h
  obtain ⟨a2, b2⟩ := keywordScore_bounds pe email
  obtain ⟨a3, b3⟩ := temporalScore_bounds email now
  obtain ⟨a4, b4⟩ := categoryScore_bounds rx pe email now
  obtain ⟨a5, b5⟩ := engagementScore_bounds pe email
  obtain ⟨a6, b6⟩ := threadScore_bounds email
  unfold rawSum
  omega

theorem factors_sum_eq (rx : RegexOracle) (pe : PriorityEngine) (email : Email) (now : ℚ) :
    sumFactors (CalculatePriority rx pe email now).score.Factors = rawSum rx pe email now := by
  simp only [CalculatePriority, sumFactors, rawSum, List.map, List.sum_cons, List.sum_nil]
  ring

theorem score_eq_clamp_decayed (rx : RegexOracle) (pe : PriorityEngine) (email : Email) (now : ℚ) :
    (CalculatePriority rx pe email now).score.Score =
      clamp100 (if pe.config.PriorityRules.TimeDecay.Enabled
        then (applyTimeDecay pe (rawSum rx pe email now) email.ReceivedAt now).1
        else rawSum rx pe email now) := by
  rw [← two_step_clamp]
  simp only [CalculatePriority, rawSum, apply_ite (Prod.fst (α := Int) (β := List String))]
  split_ifs <;> omega

/-! ## Decay lemmas -/

theorem ite_neg_eq_max (x : ℚ) : (if x < 0 then 0 else x) = max 0 x := by
  split_ifs with h
  · exact (max_eq_left (le_of_lt h)).symm
  · exact (max_eq_right (not_lt.mp h)).symm

theorem applyTimeDecay_not_triggered (pe : PriorityEngine) (raw : Int) (receivedAt now : ℚ)
    (h : now - receivedAt ≤ (pe.config.PriorityRules.TimeDecay.MaxAgeHours : ℚ)) :
    (applyTimeDecay pe raw receivedAt now).1 = raw := by
  simp only [applyTimeDecay]
  split_ifs with h1 h2 h3
  · rfl
  · exact absurd h2 (not_lt.mpr h)
  · exact absurd h2 (not_lt.mpr h)
  · rfl

theorem applyTimeDecay_triggered (pe : PriorityEngine) (raw : Int) (receivedAt now : ℚ)
    (hen : pe.config.PriorityRules.TimeDecay.Enabled = true)
    (htrig : (pe.config.PriorityRules.TimeDecay.MaxAgeHours : ℚ) < now - receivedAt) :
    (applyTimeDecay pe raw receivedAt now).1 =
      ratTrunc ((raw : ℚ) *
        (if 1 - pe.config.PriorityRules.TimeDecay.DecayRate * ((now - receivedAt) / 24) < 0
          then 0
          else 1 - pe.config.PriorityRules.TimeDecay.DecayRate * ((now - receivedAt) / 24))) := by
  unfold applyTimeDecay
  rw [hen]
  simp only [Bool.not_true, Bool.false_eq_true, if_false, if_pos htrig]

theorem decayFactor_bounds (rate age : ℚ) (hrate : 0 ≤ rate) (hage : 0 ≤ age) :
    0 ≤ (if 1 - rate * (age / 24) < 0 then 0 else 1 - rate * (age / 24)) ∧
      (if 1 - rate * (age / 24) < 0 then 0 else 1 - rate * (age / 24)) ≤ 1 := by
  have hm : 0 ≤ rate * (age / 24) := by positivity
  split_ifs with h
  · constructor <;> norm_num
  · constructor
    · exact not_lt.mp h
    · linarith

theorem clamp_applyTimeDecay_le (pe : PriorityEngine) (raw : Int) (receivedAt now : ℚ)
    (hrate : 0 ≤ pe.config.PriorityRules.TimeDecay.DecayRate)
    (hage : 0 ≤ pe.config.PriorityRules.TimeDecay.MaxAgeHours) :
    clamp100 (applyTimeDecay pe raw receivedAt now).1 ≤ clamp100 raw := by
  rcases le_or_lt (now - receivedAt) (pe.config.PriorityRules.TimeDecay.MaxAgeHours : ℚ) with hle | hgt
  · rw [applyTimeDecay_not_triggered pe raw receivedAt now hle]
  · by_cases hen : pe.config.PriorityRules.TimeDecay.Enabled = true
    · rw [applyTimeDecay_triggered pe raw receivedAt now hen hgt]
      have hage' : (0 : ℚ) ≤ now - receivedAt := by
        have : ((0 : Int) : ℚ) ≤ (pe.config.PriorityRules.TimeDecay.MaxAgeHours : ℚ) := by
          exact_mod_cast hage
        push_cast at this
        linarith
      obtain ⟨hf0, hf1⟩ :=
        decayFactor_bounds pe.config.PriorityRules.TimeDecay.DecayRate (now - receivedAt)
          hrate hage'
      set f := (if 1 - pe.config.PriorityRules.TimeDecay.DecayRate * ((now - receivedAt) / 24) < 0
        then (0 : ℚ)
        else 1 - pe.config.PriorityRules.TimeDecay.DecayRate * ((now - receivedAt) / 24)) with hfdef
      rcases le_or_lt 0 raw with hr | hr
      · have hq : (0 : ℚ) ≤ (raw : ℚ) * f := by
          have : (0 : ℚ) ≤ (raw : ℚ) := by exact_mod_cast hr
          positivity
        have hle2 : (raw : ℚ) * f ≤ (raw : ℚ) := by
          have : (0 : ℚ) ≤ (raw : ℚ) := by exact_mod_cast hr
          nlinarith
        exact clamp100_mono (ratTrunc_le_of_le hq hle2)
      · have hq : (raw : ℚ) * f ≤ 0 := by
          have : (raw : ℚ) ≤ 0 := by exact_mod_cast (le_of_lt hr)
          exact mul_nonpos_of_nonpos_of_nonneg this hf0
        have h1 : ratTrunc ((raw : ℚ) * f) ≤ 0 := ratTrunc_nonpos hq
        have h2 : clamp100 (ratTrunc ((raw : ℚ) * f)) = 0 := by
          unfold clamp100
          split_ifs <;> omega
        rw [h2]
        exact clamp100_nonneg raw
    · simp only [Bool.not_eq_true] at hen
      simp [applyTimeDecay, hen]

/-! ## Claim theorems -/

/-- C1: for every message, the priority score of `CalculatePriority` lies in
[0,100]; it never exceeds the clamp to [0,100] of the sum of the six
contributions recorded in the Factors map (so the post-decay value never
exceeds the pre-decay clamped sum); and whenever decay is disabled, or not
triggered because the message is not older than the max-age threshold, or
left the sum unchanged, the score equals exactly that clamped sum.  The two
hypotheses are the sanity of the decay configuration: a nonnegative decay
rate and max age. -/
theorem c1_score_invariant (rx : RegexOracle) (pe : PriorityEngine) (email : Email) (now : ℚ)
    (hrate : 0 ≤ pe.config.PriorityRules.TimeDecay.DecayRate)
    (hage : 0 ≤ pe.config.PriorityRules.TimeDecay.MaxAgeHours) :
    (0 ≤ (CalculatePriority rx pe email now).score.Score ∧
      (CalculatePriority rx pe email now).score.Score ≤ 100) ∧
    (CalculatePriority rx pe email now).score.Score ≤
      clamp100 (sumFactors (CalculatePriority rx pe email now).score.Factors) ∧
    ((pe.config.PriorityRules.TimeDecay.Enabled = false ∨
        now - email.ReceivedAt ≤ (pe.config.PriorityRules.TimeDecay.MaxAgeHours : ℚ) ∨
        (applyTimeDecay pe (sumFactors (CalculatePriority rx pe email now).score.Factors)
            email.ReceivedAt now).1 =
          sumFactors (CalculatePriority rx pe email now).score.Factors) →
      (CalculatePriority rx pe email now).score.Score =
        clamp100 (sumFactors (CalculatePriority rx pe email now).score.Factors)) := by
  rw [factors_sum_eq rx pe email now, score_eq_clamp_decayed rx pe email now]
  refine ⟨⟨clamp100_nonneg _, clamp100_le_100 _⟩, ?_, ?_⟩
  · by_cases hen : pe.config.PriorityRules.TimeDecay.Enabled = true
    · rw [if_pos hen]
      exact clamp_applyTimeDecay_le pe _ email.ReceivedAt now hrate hage
    · rw [if_neg hen]
  · rintro (hdis | hnt | hid)
    · rw [if_neg (by rw [hdis]; exact Bool.false_ne_true)]
    · by_cases hen : pe.config.PriorityRules.TimeDecay.Enabled = true
      · rw [if_pos hen, applyTimeDecay_not_triggered pe _ email.ReceivedAt now hnt]
      · rw [if_neg hen]
    · by_cases hen : pe.config.PriorityRules.TimeDecay.Enabled = true
      · rw [if_pos hen, hid]
      · rw [if_neg hen]

/-- C1 witness: at a concrete engine with decay disabled, the score is in
[0,100]. -/
theorem c1_score_invariant_witness :
    0 ≤ (CalculatePriority rxNone peW emailW 0).score.Score ∧
      (CalculatePriority rxNone peW emailW 0).score.Score ≤ 100 :=
  (c1_score_invariant rxNone peW emailW 0 (le_refl _) (le_refl _)).1

/-- C2: for every message, over any store whose analytics row for the sender
carries an engagement score in [0,100], each factor contribution stays
within its documented cap: sender in [0,30], keywords in [0,20], temporal in
[0,15], category in [0,15], engagement in [0,10], thread in [0,10]. -/
theorem c2_factor_caps (rx : RegexOracle) (pe : PriorityEngine) (email : Email) (now : ℚ)
    (h : engagementScoreOK pe.db email.From) :
    (0 ≤ (calculateSenderScore pe email).1 ∧ (calculateSenderScore pe email).1 ≤ 30) ∧
    (0 ≤ (calculateKeywordScore pe email).1 ∧ (calculateKeywordScore pe email).1 ≤ 20) ∧
    (0 ≤ (calculateTemporalScore email now).1 ∧ (calculateTemporalScore email now).1 ≤ 15) ∧
    (0 ≤ (calculateCategoryScore rx pe email now).1 ∧
      (calculateCategoryScore rx pe email now).1 ≤ 15) ∧
    (0 ≤ (calculateEngagementScore pe email).1 ∧ (calculateEngagementScore pe email).1 ≤ 10) ∧
    (0 ≤ (calculateThreadScore email).1 ∧ (calculateThreadScore email).1 ≤ 10) :=
  ⟨senderScore_bounds pe email h, keywordScore_bounds pe email,
    temporalScore_bounds email now, categoryScore_bounds rx pe email now,
    engagementScore_bounds pe email, threadScore_bounds email⟩

/-- C2 witness: the sender cap at a concrete engine whose store has an
analytics row with engagement score 50 for the sender. -/
theorem c2_factor_caps_witness :
    0 ≤ (calculateSenderScore peAnalytics emailW).1 ∧
      (calculateSenderScore peAnalytics emailW).1 ≤ 30 :=
  (c2_factor_caps rxNone peAnalytics emailW 0
    (by
      intro a ha
      simp [peAnalytics, dbAnalytics, emailW] at ha
      subst ha
      norm_num [analyticsW])).1

/-- C4: whenever decay is enabled and the message age strictly exceeds the
max-age threshold (and the analytics engagement score for the sender is
within the documented [0,100]), the final score of `CalculatePriority`
equals the pipeline the spec describes: the raw factor sum clamped to
[0,100], multiplied by `max 0 (1 - decayRate * (ageInHours/24))`, floored,
and clamped to [0,100] again. -/
theorem c4_decay_pipeline (rx : RegexOracle) (pe : PriorityEngine) (email : Email) (now : ℚ)
    (hen : pe.config.PriorityRules.TimeDecay.Enabled = true)
    (htrig : (pe.config.PriorityRules.TimeDecay.MaxAgeHours : ℚ) < now - email.ReceivedAt)
    (hok : engagementScoreOK pe.db email.From) :
    (CalculatePriority rx pe email now).score.Score =
      specDecayPipeline (sumFactors (CalculatePriority rx pe email now).score.Factors)
        pe.config.PriorityRules.TimeDecay.DecayRate (now - email.ReceivedAt) := by
  rw [factors_sum_eq rx pe email now, score_eq_clamp_decayed rx pe email now, if_pos hen]
  obtain ⟨hraw0, hraw1⟩ := rawSum_bounds rx pe email now hok
  unfold specDecayPipeline
  rw [clamp100_of_range hraw0 hraw1]
  rw [applyTimeDecay_triggered pe _ email.ReceivedAt now hen htrig]
  rw [ite_neg_eq_max]
  have hq : (0 : ℚ) ≤ (rawSum rx pe email now : ℚ) *
      max 0 (1 - pe.config.PriorityRules.TimeDecay.DecayRate * ((now - email.ReceivedAt) / 24)) := by
    have h1 : (0 : ℚ) ≤ (rawSum rx pe email now : ℚ) := by exact_mod_cast hraw0
    exact mul_nonneg h1 (le_max_left 0 _)
  rw [ratTrunc_eq_floor hq]

/-- C4 witness: the decay-pipeline equation at a concrete engine with decay
enabled (threshold 48h, rate 0.1) and a message 72 hours old. -/
theorem c4_decay_pipeline_witness :
    (CalculatePriority rxNone peDecay emailW 72).score.Score =
      specDecayPipeline (sumFactors (CalculatePriority rxNone peDecay emailW 72).score.Factors)
        peDecay.config.PriorityRules.TimeDecay.DecayRate (72 - emailW.ReceivedAt) :=
  c4_decay_pipeline rxNone peDecay emailW 72 rfl
    (by norm_num [peDecay, pcDecay, emailW])
    (by intro a ha; simp [peDecay, dbEmpty] at ha)

/-! ## Rule-selection lemmas (the fold of classifyByRules) -/

theorem ruleStep_wins (rx : RegexOracle) (email : Email) (now : ℚ)
    (acc : Option ClassificationResult × ℚ) (cat : String) (r : ClassificationRule)
    (hm : matchesRule rx email r = true) (hlt : acc.2 < r.Confidence) :
    ruleStep rx email now acc (cat, r) = (some (ruleResult email cat r now), r.Confidence) := by
  unfold ruleStep
  dsimp only
  rw [if_pos hm, if_pos hlt]

theorem foldl_ruleStep_absorb (rx : RegexOracle) (email : Email) (now : ℚ)
    (l : List (String × ClassificationRule)) (b : Option ClassificationResult) (hi : ℚ)
    (h : ∀ p ∈ l, matchesRule rx email p.2 = true → p.2.Confidence < hi) :
    l.foldl (ruleStep rx email now) (b, hi) = (b, hi) := by
  induction l with
  | nil => rfl
  | cons p t ih =>
    have hstep : ruleStep rx email now (b, hi) p = (b, hi) := by
      unfold ruleStep
      split_ifs with hm hc
      · exact absurd hc (not_lt.mpr (le_of_lt (h p (List.mem_cons_self p t) hm)))
      · rfl
      · rfl
    rw [List.foldl_cons, hstep]
    exact ih (fun q hq hmq => h q (List.mem_cons_of_mem p hq) hmq)

theorem foldl_ruleStep_snd_lt (rx : RegexOracle) (email : Email) (now : ℚ)
    (l : List (String × ClassificationRule)) (acc : Option ClassificationResult × ℚ) (hi : ℚ)
    (hacc : acc.2 < hi)
    (h : ∀ p ∈ l, matchesRule rx email p.2 = true → p.2.Confidence < hi) :
    (l.foldl (ruleStep rx email now) acc).2 < hi := by
  induction l generalizing acc with
  | nil => exact hacc
  | cons p t ih =>
    rw [List.foldl_cons]
    refine ih (ruleStep rx email now acc p) ?_ (fun q hq hmq => h q (List.mem_cons_of_mem p hq) hmq)
    unfold ruleStep
    split_ifs with hm hc
    · exact h p (List.mem_cons_self p t) hm
    · exact hacc
    · exact hacc

theorem foldl_ruleStep_timestamp (rx : RegexOracle) (email : Email) (now : ℚ)
    (l : List (String × ClassificationRule)) (acc : Option ClassificationResult × ℚ)
    (hacc : ∀ r, acc.1 = some r → r.Timestamp = now) :
    ∀ r, (l.foldl (ruleStep rx email now) acc).1 = some r → r.Timestamp = now := by
  induction l generalizing acc with
  | nil => exact hacc
  | cons p t ih =>
    intro r hr
    rw [List.foldl_cons] at hr
    refine ih (ruleStep rx email now acc p) ?_ r hr
    intro q hq
    by_cases hm : matchesRule rx email p.2 = true
    · by_cases hlt : acc.2 < p.2.Confidence
      · unfold ruleStep at hq
        rw [if_pos hm, if_pos hlt] at hq
        dsimp only at hq
        injection hq with hqe
        rw [← hqe]
        rfl
      · unfold ruleStep at hq
        rw [if_pos hm, if_neg hlt] at hq
        exact hacc q hq
    · unfold ruleStep at hq
      rw [if_neg hm] at hq
      exact hacc q hq

theorem classifyByRules_timestamp (rx : RegexOracle) (c : Classifier) (email : Email) (now : ℚ) :
    (classifyByRules rx c email now).Timestamp = now := by
  simp only [classifyByRules]
  rcases hf : (c.config.ClassificationRules.foldl (ruleStep rx email now)
      ((none : Option ClassificationResult), (0 : ℚ))).1 with _ | best
  · simp only [hf]
    rfl
  · simp only [hf]
    exact foldl_ruleStep_timestamp rx email now c.config.ClassificationRules (none, 0)
      (fun r hr => Option.noConfusion hr) best hf

/-! ## Claim theorems: classifier -/

/-- C3 counterexample: the frozen claim fails on an ignored sender: the
ignore short circuit does not cache, so a second call one hour later is
recomputed with a fresh timestamp and the two results are not identical. -/
theorem c3_counterexample :
    (Classify rxNone clIgnore emailMarketing 0).result ≠
      (Classify rxNone (Classify rxNone clIgnore emailMarketing 0).state emailMarketing 1).result := by
  intro h
  exact absurd (show (0 : ℚ) = 1 from congrArg ClassificationResult.Timestamp h) (by norm_num)

/-- C3 as amended: for a message whose sender and subject are not ignored,
a second `Classify` call on the state the first call produced returns the
first result unchanged, byte for byte, provided the second call happens
within 24 hours of the first result's timestamp (the cache path). -/
theorem c3_idempotent_within_24h (rx : RegexOracle) (c : Classifier) (email : Email)
    (now₁ now₂ : ℚ)
    (h1 : ShouldIgnoreSender c.config email.From = false)
    (h2 : ShouldIgnoreSubject c.config email.Subject = false)
    (h3 : now₂ - (Classify rx c email now₁).result.Timestamp < 24) :
    (Classify rx (Classify rx c email now₁).state email now₂).result =
      (Classify rx c email now₁).result := by
  cases hcl : cacheLookup c email now₁ with
  | some cached =>
    have hck : c.cache (getCacheKey email) = some cached := by
      unfold cacheLookup at hcl
      cases hc : c.cache (getCacheKey email) with
      | none => rw [hc] at hcl; exact Option.noConfusion hcl
      | some r =>
        rw [hc] at hcl
        dsimp only at hcl
        by_cases hfr : now₁ - r.Timestamp < 24
        · rw [if_pos hfr] at hcl
          exact hcl
        · rw [if_neg hfr] at hcl
          exact Option.noConfusion hcl
    simp only [Classify, hcl] at h3 ⊢
    have hcl2 : cacheLookup c email now₂ = some cached := by
      unfold cacheLookup
      rw [hck]
      dsimp only
      rw [if_pos h3]
    simp only [hcl2]
  | none =>
    simp only [Classify, hcl, h1, h2, Bool.false_eq_true, if_false] at h3 ⊢
    have hcl2 : cacheLookup
        { c with cache := fun k => if k = getCacheKey email
            then some (classifyByRules rx c email now₁) else c.cache k }
        email now₂ = some (classifyByRules rx c email now₁) := by
      unfold cacheLookup
      simp only [eq_self_iff_true, if_true]
      rw [if_pos h3]
    simp only [hcl2]

/-- C3 witness: a plain message classified at time 0 and again at time 1
(same state threaded through) gives identical results. -/
theorem c3_idempotent_witness :
    (Classify rxNone (Classify rxNone clPlain emailW 0).state emailW 1).result =
      (Classify rxNone clPlain emailW 0).result :=
  c3_idempotent_within_24h rxNone clPlain emailW 0 1 rfl rfl
    (by norm_num [show (Classify rxNone clPlain emailW 0).result.Timestamp = 0 from rfl])

/-- C5 counterexample: a rule that matches with the strictly greatest
confidence among matching rules (it is the only configured rule) is not
selected when that confidence is 0: the comparison in classifyByRules is
strict against an initial best of 0, so the default heuristics win
instead. -/
theorem c5_counterexample :
    matchesRule rxNone emailW ruleZero = true ∧
    ¬((Classify rxNone clZeroRule emailW 0).result.Category = "X" ∧
      (Classify rxNone clZeroRule emailW 0).result.Confidence = ruleZero.Confidence ∧
      (Classify rxNone clZeroRule emailW 0).result.Tags = ruleZero.Tags) := by
  constructor
  · rfl
  · intro h
    exact absurd h.1 (by decide)

/-- C5 as amended: for every message that reaches rule evaluation (no fresh
cache entry, not ignored), if some configured rule matches with a strictly
positive confidence that is strictly greater than the confidence of every
other matching rule — stated over any iteration order of the rule map —
then Classify returns that rule's category, confidence and tags. -/
theorem c5_highest_confidence_wins (rx : RegexOracle) (c : Classifier) (email : Email) (now : ℚ)
    (pre post : List (String × ClassificationRule)) (cat : String) (r : ClassificationRule)
    (hrules : c.config.ClassificationRules = pre ++ (cat, r) :: post)
    (hmatch : matchesRule rx email r = true)
    (hpos : 0 < r.Confidence)
    (hpre : ∀ p ∈ pre, matchesRule rx email p.2 = true → p.2.Confidence < r.Confidence)
    (hpost : ∀ p ∈ post, matchesRule rx email p.2 = true → p.2.Confidence < r.Confidence)
    (hnc : cacheLookup c email now = none)
    (hig1 : ShouldIgnoreSender c.config email.From = false)
    (hig2 : ShouldIgnoreSubject c.config email.Subject = false) :
    (Classify rx c email now).result.Category = cat ∧
    (Classify rx c email now).result.Confidence = r.Confidence ∧
    (Classify rx c email now).result.Tags = r.Tags := by
  have hfold : c.config.ClassificationRules.foldl (ruleStep rx email now)
      ((none : Option ClassificationResult), (0 : ℚ)) =
      (some (ruleResult email cat r now), r.Confidence) := by
    rw [hrules, List.foldl_append, List.foldl_cons]
    have hlt : (pre.foldl (ruleStep rx email now) ((none : Option ClassificationResult), (0 : ℚ))).2 <
        r.Confidence :=
      foldl_ruleStep_snd_lt rx email now pre (none, 0) r.Confidence hpos hpre
    rw [ruleStep_wins rx email now _ cat r hmatch hlt]
    exact foldl_ruleStep_absorb rx email now post _ _ hpost
  have hcr : classifyByRules rx c email now = ruleResult email cat r now := by
    simp only [classifyByRules, hfold]
  simp only [Classify, hnc, hig1, hig2, Bool.false_eq_true, if_false, hcr]
  exact ⟨rfl, rfl, rfl⟩

/-- C5 witness: a single configured rule with confidence 0.8 that matches
the message wins with its category, confidence and tags. -/
theorem c5_highest_confidence_witness :
    (Classify rxNone
        { config := { PriorityRules := rulesPlain, ClassificationRules := [("work", ruleWork)] }
          db := dbEmpty
          cache := fun _ => none } emailW 0).result.Category = "work" ∧
    (Classify rxNone
        { config := { PriorityRules := rulesPlain, ClassificationRules := [("work", ruleWork)] }
          db := dbEmpty
          cache := fun _ => none } emailW 0).result.Confidence = ruleWork.Confidence ∧
    (Classify rxNone
        { config := { PriorityRules := rulesPlain, ClassificationRules := [("work", ruleWork)] }
          db := dbEmpty
          cache := fun _ => none } emailW 0).result.Tags = ruleWork.Tags :=
  c5_highest_confidence_wins rxNone
    { config := { PriorityRules := rulesPlain, ClassificationRules := [("work", ruleWork)] }
      db := dbEmpty
      cache := fun _ => none } emailW 0 [] [] "work" ruleWork rfl rfl
    (by norm_num [ruleWork])
    (fun p hp => absurd hp (List.not_mem_nil p))
    (fun p hp => absurd hp (List.not_mem_nil p))
    rfl rfl rfl

/-- C6: for every message with no fresh cache entry whose sender matches a
configured ignore pattern, Classify returns exactly the spam record:
category spam, confidence 0.99, method rules, tags ignored+auto, reasoning
"Sender is in ignore list", stamped with the current time — whatever the
configured classification rules are. -/
theorem c6_ignored_sender_spam (rx : RegexOracle) (c : Classifier) (email : Email) (now : ℚ)
    (hnc : cacheLookup c email now = none)
    (hig : ShouldIgnoreSender c.config email.From = true) :
    (Classify rx c email now).result =
      { EmailID := email.ID
        Category := "spam"
        Confidence := 0.99
        Method := "rules"
        Tags := ["ignored", "auto"]
        Reasoning := "Sender is in ignore list"
        Timestamp := now } := by
  simp only [Classify, hnc, hig, if_true]

/-- C6 witness: the spec example: pattern *@marketing.com ignores sender
promo@marketing.com and short-circuits to the spam record. -/
theorem c6_ignored_sender_witness :
    (Classify rxNone clIgnore emailMarketing 0).result =
      { EmailID := "m2"
        Category := "spam"
        Confidence := 0.99
        Method := "rules"
        Tags := ["ignored", "auto"]
        Reasoning := "Sender is in ignore list"
        Timestamp := 0 } :=
  c6_ignored_sender_spam rxNone clIgnore emailMarketing 0 rfl rfl

/-- C7: Classify never returns an error: the error slot of every path is
nil; and a regex condition whose pattern does not compile evaluates to
false instead of failing the classification. -/
theorem c7_never_errors (rx : RegexOracle) (c : Classifier) (email : Email) (now : ℚ)
    (cond : Condition) :
    (Classify rx c email now).err = none ∧
    (cond.Operator = "regex" → rx cond.Value = none →
      matchesCondition rx email cond = false) := by
  constructor
  · cases hcl : cacheLookup c email now with
    | some cached => simp only [Classify, hcl]
    | none =>
      simp only [Classify, hcl]
      split_ifs <;> rfl
  · intro hop hrx
    unfold matchesCondition
    rcases hf : (if cond.Field == "from" then some email.From
      else if cond.Field == "to" then some email.To
      else if cond.Field == "subject" then some email.Subject
      else if cond.Field == "body" then some email.BodySnippet
      else if cond.Field == "headers" then some (getAllHeaders email)
      else none) with _ | fv
    · simp only [hf]
    · simp only [hf, hop]
      rw [if_neg (by decide), if_neg (by decide), if_pos (by decide), hrx]

/-- C8: the fallback heuristics of defaultClassification fire in the fixed
order automated-sender (newsletters 0.70), newsletter keyword (newsletters
0.75), promotion keyword (promotions 0.80), financial keyword (invoice
0.85), urgent keyword (urgent 0.90), first match winning, else personal
0.50; and on the concrete example message (sender
newsletter@techcrunch.com, subject "Daily Tech News Digest", no configured
rule) Classify returns newsletters with confidence 0.75. -/
theorem c8_default_heuristics (email : Email) (now : ℚ) :
    (containsAny (toLower email.From) ["noreply@", "no-reply@", "notifications@"] = true →
      (defaultClassification email now).Category = "newsletters" ∧
      (defaultClassification email now).Confidence = 0.7) ∧
    (containsAny (toLower email.From) ["noreply@", "no-reply@", "notifications@"] = false →
      containsAny (toLower email.Subject) ["newsletter", "subscription", "digest"] = true →
      (defaultClassification email now).Category = "newsletters" ∧
      (defaultClassification email now).Confidence = 0.75) ∧
    (containsAny (toLower email.From) ["noreply@", "no-reply@", "notifications@"] = false →
      containsAny (toLower email.Subject) ["newsletter", "subscription", "digest"] = false →
      containsAny (toLower email.Subject) ["sale", "offer", "discount", "% off", "deal"] = true →
      (defaultClassification email now).Category = "promotions" ∧
      (defaultClassification email now).Confidence = 0.80) ∧
    (containsAny (toLower email.From) ["noreply@", "no-reply@", "notifications@"] = false →
      containsAny (toLower email.Subject) ["newsletter", "subscription", "digest"] = false →
      containsAny (toLower email.Subject) ["sale", "offer", "discount", "% off", "deal"] = false →
      containsAny (toLower email.Subject) ["invoice", "payment", "receipt", "bill"] = true →
      (defaultClassification email now).Category = "invoice" ∧
      (defaultClassification email now).Confidence = 0.85) ∧
    (containsAny (toLower email.From) ["noreply@", "no-reply@", "notifications@"] = false →
      containsAny (toLower email.Subject) ["newsletter", "subscription", "digest"] = false →
      containsAny (toLower email.Subject) ["sale", "offer", "discount", "% off", "deal"] = false →
      containsAny (toLower email.Subject) ["invoice", "payment", "receipt", "bill"] = false →
      containsAny (toLower email.Subject) ["urgent", "asap", "important", "critical"] = true →
      (defaultClassification email now).Category = "urgent" ∧
      (defaultClassification email now).Confidence = 0.90) ∧
    (containsAny (toLower email.From) ["noreply@", "no-reply@", "notifications@"] = false →
      containsAny (toLower email.Subject) ["newsletter", "subscription", "digest"] = false →
      containsAny (toLower email.Subject) ["sale", "offer", "discount", "% off", "deal"] = false →
      containsAny (toLower email.Subject) ["invoice", "payment", "receipt", "bill"] = false →
      containsAny (toLower email.Subject) ["urgent", "asap", "important", "critical"] = false →
      (defaultClassification email now).Category = "personal" ∧
      (defaultClassification email now).Confidence = 0.5) ∧
    ((Classify rxNone clPlain emailDigest 0).result.Category = "newsletters" ∧
      (Classify rxNone clPlain emailDigest 0).result.Confidence = 0.75) := by
  refine ⟨?_, ?_, ?_, ?_, ?_, ?_, ⟨rfl, rfl⟩⟩
  · intro h1
    simp only [defaultClassification, h1, if_true]
    exact ⟨trivial, trivial⟩
  · intro h1 h2
    simp only [defaultClassification, h1, h2, Bool.false_eq_true, if_false, if_true]
    exact ⟨trivial, trivial⟩
  · intro h1 h2 h3
    simp only [defaultClassification, h1, h2, h3, Bool.false_eq_true, if_false, if_true]
    exact ⟨trivial, trivial⟩
  · intro h1 h2 h3 h4
    simp only [defaultClassification, h1, h2, h3, h4, Bool.false_eq_true, if_false, if_true]
    exact ⟨trivial, trivial⟩
  · intro h1 h2 h3 h4 h5
    simp only [defaultClassification, h1, h2, h3, h4, h5, Bool.false_eq_true, if_false, if_true]
    exact ⟨trivial, trivial⟩
  · intro h1 h2 h3 h4 h5
    simp only [defaultClassification, h1, h2, h3, h4, h5, Bool.false_eq_true, if_false]
    exact ⟨trivial, trivial⟩

/-- C9: whenever Classify answers through the ignore-sender or
ignore-subject short circuit (no fresh cache entry, ignored), the classifier
state — in particular the cache — is left entirely unchanged, and the
result carries the current time as its timestamp, so a repeated call
recomputes a fresh result rather than hitting a cache entry. -/
theorem c9_ignore_paths_no_cache_write (rx : RegexOracle) (c : Classifier) (email : Email)
    (now : ℚ)
    (hnc : cacheLookup c email now = none)
    (hig : ShouldIgnoreSender c.config email.From = true ∨
      ShouldIgnoreSubject c.config email.Subject = true) :
    (Classify rx c email now).state = c ∧ (Classify rx c email now).result.Timestamp = now := by
  cases hs : ShouldIgnoreSender c.config email.From with
  | true =>
    simp only [Classify, hnc, hs, if_true]
    exact ⟨trivial, trivial⟩
  | false =>
    have ht : ShouldIgnoreSubject c.config email.Subject = true := by
      rcases hig with h | h
      · rw [hs] at h
        exact absurd h (by decide)
      · exact h
    simp only [Classify, hnc, hs, ht, Bool.false_eq_true, if_false, if_true]
    exact ⟨trivial, trivial⟩

/-- C9 witness: the ignored marketing sender at time 5 leaves the state
unchanged and stamps the result with 5. -/
theorem c9_ignore_witness :
    (Classify rxNone clIgnore emailMarketing 5).state = clIgnore ∧
      (Classify rxNone clIgnore emailMarketing 5).result.Timestamp = 5 :=
  c9_ignore_paths_no_cache_write rxNone clIgnore emailMarketing 5 rfl (Or.inl rfl)

/-- C10: LearnFromFeedback writes only to the persistent store: the
in-memory cache is untouched, and a Classify call on a message with a fresh
cached result still returns that old cached result, not the corrected
category. -/
theorem c10_learn_does_not_touch_cache (rx : RegexOracle) (c : Classifier)
    (emailID correctCategory : String) (tL : ℚ) (email : Email) (now : ℚ)
    (r : ClassificationResult)
    (hcache : cacheLookup c email now = some r) :
    (LearnFromFeedback c emailID correctCategory tL).1.cache = c.cache ∧
    (Classify rx (LearnFromFeedback c emailID correctCategory tL).1 email now).result = r := by
  have hc : (LearnFromFeedback c emailID correctCategory tL).1.cache = c.cache := rfl
  refine ⟨hc, ?_⟩
  have hlk : cacheLookup (LearnFromFeedback c emailID correctCategory tL).1 email now =
      cacheLookup c email now := by
    unfold cacheLookup
    rw [hc]
  simp only [Classify, hlk, hcache]

/-- C10 witness: after feedback correcting message m1 to category spam, a
classifier whose cache holds a fresh result for emailW still returns the
old cached result. -/
theorem c10_learn_witness :
    (LearnFromFeedback clCached "m1" "spam" 0).1.cache = clCached.cache ∧
    (Classify rxNone (LearnFromFeedback clCached "m1" "spam" 0).1 emailW 0).result =
      cachedResultW :=
  c10_learn_does_not_touch_cache rxNone clCached "m1" "spam" 0 emailW 0 cachedResultW
    (by norm_num [cacheLookup, clCached, emailW, getCacheKey, cachedResultW])

end EmailMCP
